import Mathlib

/-!
# Verification of the SmooAI layered configuration resolution engine

Shallow embedding of the Rust sources under `rust/config/src/` and proofs of
the specification claims about them.

Conventions of the embedding:
* `serde_json::Value` becomes the inductive `Value`; JSON objects
  (`serde_json::Map<String, Value>` / `HashMap<String, Value>`) become
  association lists `List (String × Value)` with the usual unique-keys
  invariant of the Rust map types expressed as `nodupKeysB`.
* Filesystem reads, the HTTP remote fetch, and the process environment are
  I/O; they are modelled by explicit pure inputs (`FileResult` per path, a
  `RemoteOutcome`, an environment association list) threaded through the
  translated functions, which otherwise follow the Rust control flow
  line by line.
* `Instant` timestamps and `Duration` TTLs become `Nat` (seconds).
-/

/-! ## Association-list maps

Model of `HashMap<String, V>` / `serde_json::Map<String, Value>` operations
used by the sources: lookup (`get`), insert-or-replace (`insert`), removal
(`remove`), and the unique-keys invariant both Rust map types maintain. -/

def lookupKV {α : Type} : List (String × α) → String → Option α
  | [], _ => none
  | (k', v) :: rest, k => if k' = k then some v else lookupKV rest k

def setKV {α : Type} : List (String × α) → String → α → List (String × α)
  | [], k, v => [(k, v)]
  | (k', v') :: rest, k, v => if k' = k then (k, v) :: rest else (k', v') :: setKV rest k v

def removeKV {α : Type} : List (String × α) → String → List (String × α)
  | [], _ => []
  | (k', v') :: rest, k => if k' = k then rest else (k', v') :: removeKV rest k

/-- Boolean unique-keys predicate: no key occurs twice in the list. -/
def nodupKeysB {α : Type} : List (String × α) → Bool
  | [] => true
  | (k, _) :: rest => (lookupKV rest k).isNone && nodupKeysB rest

theorem lookupKV_setKV_self {α : Type} (l : List (String × α)) (k : String) (v : α) :
    lookupKV (setKV l k v) k = some v := by
  induction l with
  | nil => simp [setKV, lookupKV]
  | cons p rest ih =>
    obtain ⟨k', v'⟩ := p
    by_cases h : k' = k
    · simp [setKV, h, lookupKV]
    · simp [setKV, h, lookupKV, ih]

theorem lookupKV_setKV_ne {α : Type} (l : List (String × α)) (k j : String) (v : α)
    (hne : j ≠ k) : lookupKV (setKV l k v) j = lookupKV l j := by
  have hkj : k ≠ j := fun h => hne h.symm
  induction l with
  | nil => simp [setKV, lookupKV, hkj]
  | cons p rest ih =>
    obtain ⟨k', v'⟩ := p
    by_cases h : k' = k
    · subst h
      simp [setKV, lookupKV, hkj]
    · simp [setKV, h, lookupKV, ih]

theorem lookupKV_removeKV_ne {α : Type} (l : List (String × α)) (k j : String)
    (hne : j ≠ k) : lookupKV (removeKV l k) j = lookupKV l j := by
  have hkj : k ≠ j := fun h => hne h.symm
  induction l with
  | nil => simp [removeKV]
  | cons p rest ih =>
    obtain ⟨k', v'⟩ := p
    by_cases h : k' = k
    · subst h
      simp [removeKV, lookupKV, hkj]
    · simp [removeKV, h, lookupKV, ih]

theorem lookupKV_removeKV_self {α : Type} (l : List (String × α)) (k : String)
    (hnd : nodupKeysB l = true) : lookupKV (removeKV l k) k = none := by
  induction l with
  | nil => simp [removeKV, lookupKV]
  | cons p rest ih =>
    obtain ⟨k', v'⟩ := p
    simp only [nodupKeysB, Bool.and_eq_true, Option.isNone_iff_eq_none] at hnd
    by_cases h : k' = k
    · subst h
      simpa [removeKV] using hnd.1
    · simp [removeKV, h, lookupKV, ih hnd.2]

theorem nodupKeysB_setKV {α : Type} (l : List (String × α)) (k : String) (v : α)
    (hnd : nodupKeysB l = true) : nodupKeysB (setKV l k v) = true := by
  induction l with
  | nil => simp [setKV, nodupKeysB, lookupKV]
  | cons p rest ih =>
    obtain ⟨k', v'⟩ := p
    simp only [nodupKeysB, Bool.and_eq_true, Option.isNone_iff_eq_none] at hnd
    by_cases h : k' = k
    · subst h
      simp [setKV, nodupKeysB, hnd.1, hnd.2]
    · simp only [setKV, h, if_false, nodupKeysB, Bool.and_eq_true,
        Option.isNone_iff_eq_none]
      refine ⟨?_, ih hnd.2⟩
      by_cases hk : k' = k
      · exact absurd hk h
      · rw [lookupKV_setKV_ne rest k k' v (fun hh => h hh)]
        exact hnd.1

theorem setKV_of_absent {α : Type} (l : List (String × α)) (k : String) (v : α)
    (habs : lookupKV l k = none) : setKV l k v = l ++ [(k, v)] := by
  induction l with
  | nil => simp [setKV]
  | cons p rest ih =>
    obtain ⟨k', v'⟩ := p
    simp only [lookupKV] at habs
    by_cases h : k' = k
    · simp [h] at habs
    · simp only [lookupKV, h, if_false] at habs
      simp [setKV, h, ih habs]

theorem lookupKV_append {α : Type} (l₁ l₂ : List (String × α)) (k : String) :
    lookupKV (l₁ ++ l₂) k =
      match lookupKV l₁ k with
      | some v => some v
      | none => lookupKV l₂ k := by
  induction l₁ with
  | nil => simp [lookupKV]
  | cons p rest ih =>
    obtain ⟨k', v'⟩ := p
    by_cases h : k' = k
    · simp [lookupKV, h]
    · simp [lookupKV, h, ih]

/-! ## Structured Values (`serde_json::Value`) -/

/-- The universal JSON-like value type (`serde_json::Value`).  Rust numbers
(`serde_json::Number`) are represented by `Int`; none of the verified claims
depends on the numeric representation. -/
inductive Value where
  | null : Value
  | bool : Bool → Value
  | num : Int → Value
  | str : String → Value
  | arr : List Value → Value
  | obj : List (String × Value) → Value
deriving Repr

/-- The entry list of an object `Value`; any other `Value` yields the empty
list (mirrors `match target { Value::Object(m) => m.clone(), _ => Map::new() }`
and `match final_config { Value::Object(map) => …, _ => HashMap::new() }`). -/
def objEntries : Value → List (String × Value)
  | .obj m => m
  | _ => []

/-! ## Merge Engine (`merge.rs`) -/

mutual
/-- Verbatim translation of `merge_replace_arrays` from `merge.rs`: arrays
replace entirely, objects merge recursively key by key, primitives
overwrite. -/
def merge_replace_arrays (target source : Value) : Value :=
  match source with
  | .arr xs => .arr xs
  | .obj smap =>
      let tmap : List (String × Value) :=
        match target with
        | .obj m => m
        | _ => []
      .obj (mergeEntries tmap smap)
  | s => s

/-- The `for (key, value) in source_map` loop of `merge_replace_arrays`:
each source entry is merged against the evolving result map. -/
def mergeEntries (result : List (String × Value)) (src : List (String × Value)) :
    List (String × Value) :=
  match src with
  | [] => result
  | (k, v) :: rest =>
      let merged :=
        match lookupKV result k with
        | some tv => merge_replace_arrays tv v
        | none => v
      mergeEntries (setKV result k merged) rest
end

theorem merge_replace_arrays_arr (t : Value) (xs : List Value) :
    merge_replace_arrays t (.arr xs) = .arr xs := rfl

theorem merge_replace_arrays_obj (t : Value) (smap : List (String × Value)) :
    merge_replace_arrays t (.obj smap) = .obj (mergeEntries (objEntries t) smap) := by
  cases t <;> rfl

theorem merge_replace_arrays_null (t : Value) :
    merge_replace_arrays t .null = .null := rfl

theorem merge_replace_arrays_bool (t : Value) (b : Bool) :
    merge_replace_arrays t (.bool b) = .bool b := rfl

theorem merge_replace_arrays_num (t : Value) (n : Int) :
    merge_replace_arrays t (.num n) = .num n := rfl

theorem merge_replace_arrays_str (t : Value) (s : String) :
    merge_replace_arrays t (.str s) = .str s := rfl

/-- Per-key reading of the object-merge loop: looking up any key in
`mergeEntries result src` gives the source value merged over the original
value when the key is in `src`, and the untouched original value otherwise.
Requires unique keys in `src` (guaranteed for `serde_json::Map`). -/
theorem lookupKV_mergeEntries (src : List (String × Value)) :
    ∀ (result : List (String × Value)), nodupKeysB src = true → ∀ (k : String),
      lookupKV (mergeEntries result src) k =
        match lookupKV src k with
        | some sv =>
            some (match lookupKV result k with
              | some tv => merge_replace_arrays tv sv
              | none => sv)
        | none => lookupKV result k := by
  induction src with
  | nil => intro result _ k; simp [mergeEntries, lookupKV]
  | cons p rest ih =>
    intro result hnd k
    obtain ⟨k', v'⟩ := p
    simp only [nodupKeysB, Bool.and_eq_true, Option.isNone_iff_eq_none] at hnd
    rw [show mergeEntries result ((k', v') :: rest) =
        mergeEntries
          (setKV result k'
            (match lookupKV result k' with
              | some tv => merge_replace_arrays tv v'
              | none => v')) rest from rfl]
    rw [ih _ hnd.2 k]
    by_cases h : k' = k
    · subst h
      rw [hnd.1]
      simp [lookupKV, lookupKV_setKV_self]
    · simp only [lookupKV, h, if_false]
      rw [lookupKV_setKV_ne _ _ _ _ (fun hh => h hh.symm)]

/-! ## Well-formed Structured Values

The spec's data model: mappings have unique keys.  `wfValue` checks the
unique-keys invariant on every object reachable through object entries
(arrays are never descended into by the merge recursion). -/

mutual
def wfValue : Value → Bool
  | .obj kvs => nodupKeysB kvs && wfEntries kvs
  | _ => true

def wfEntries : List (String × Value) → Bool
  | [] => true
  | (_, v) :: rest => wfValue v && wfEntries rest
end

theorem wfEntries_lookup (l : List (String × Value)) (k : String) (v : Value)
    (hwf : wfEntries l = true) (h : lookupKV l k = some v) : wfValue v = true := by
  induction l with
  | nil => simp [lookupKV] at h
  | cons p rest ih =>
    obtain ⟨k', v'⟩ := p
    simp only [wfEntries, Bool.and_eq_true] at hwf
    simp only [lookupKV] at h
    by_cases hk : k' = k
    · simp only [hk, if_true, Option.some.injEq] at h
      exact h ▸ hwf.1
    · exact ih hwf.2 (by simpa [hk] using h)

theorem sizeOf_lookupKV {α : Type} [SizeOf α] (l : List (String × α)) (k : String) (v : α)
    (h : lookupKV l k = some v) : sizeOf v < sizeOf l := by
  induction l with
  | nil => simp [lookupKV] at h
  | cons p rest ih =>
    obtain ⟨k', v'⟩ := p
    simp only [lookupKV] at h
    by_cases hk : k' = k
    · simp only [hk, if_true, Option.some.injEq] at h
      subst h
      simp only [List.cons.sizeOf_spec, Prod.mk.sizeOf_spec]
      omega
    · have := ih (by simpa [hk] using h)
      simp only [List.cons.sizeOf_spec, Prod.mk.sizeOf_spec]
      omega

theorem sizeOf_objEntries_le (t : Value) : sizeOf (objEntries t) ≤ sizeOf t := by
  cases t <;> simp [objEntries] <;> omega

/-! ## Reference merge definition (spec §4.1)

`mergeSpec` is written from the specification's words, to be compared with
the translation `merge_replace_arrays` of the code: sequences replace;
mappings combine all keys of target (non-mapping target treated as empty)
with all keys of source, recursing on keys present in both and copying
source-only keys verbatim; scalars and null overwrite. -/

theorem sizeOf_lookupKV_le {α : Type} [SizeOf α] (l : List (String × α)) (k : String) :
    sizeOf (lookupKV l k) ≤ sizeOf l := by
  cases h : lookupKV l k with
  | none =>
    have : 1 ≤ sizeOf l := by cases l <;> simp <;> omega
    simpa using this
  | some v =>
    have := sizeOf_lookupKV l k v h
    simp only [Option.some.sizeOf_spec]
    omega

mutual
def mergeSpec (target source : Value) : Value :=
  match source with
  | .arr xs => .arr xs
  | .obj smap =>
      .obj (mergeSpecUpd (objEntries target) smap ++
        smap.filter (fun p => (lookupKV (objEntries target) p.1).isNone))
  | s => s
termination_by sizeOf target + sizeOf source
decreasing_by
  have := sizeOf_objEntries_le target
  simp only [Value.obj.sizeOf_spec]
  omega

def mergeSpecUpd (tmap smap : List (String × Value)) : List (String × Value) :=
  match tmap with
  | [] => []
  | (k, tv) :: rest =>
      (k, mergeSpecAt tv (lookupKV smap k)) :: mergeSpecUpd rest smap
termination_by sizeOf tmap + sizeOf smap
decreasing_by
  · have := sizeOf_lookupKV_le smap k
    simp only [List.cons.sizeOf_spec, Prod.mk.sizeOf_spec]
    omega
  · simp only [List.cons.sizeOf_spec, Prod.mk.sizeOf_spec]
    omega

/-- One key of the spec merge: present in both → recurse; only in target →
keep the target value. -/
def mergeSpecAt (tv : Value) : Option Value → Value
  | some sv => mergeSpec tv sv
  | none => tv
termination_by o => sizeOf tv + sizeOf o
decreasing_by
  simp only [Option.some.sizeOf_spec]
  omega
end

/-- The object case of `mergeSpec`, bundled. -/
def mergeSpecEntries (tmap smap : List (String × Value)) : List (String × Value) :=
  mergeSpecUpd tmap smap ++ smap.filter (fun p => (lookupKV tmap p.1).isNone)

theorem mergeSpec_obj (t : Value) (smap : List (String × Value)) :
    mergeSpec t (.obj smap) = .obj (mergeSpecEntries (objEntries t) smap) := by
  unfold mergeSpec mergeSpecEntries
  rfl

theorem mergeSpecAt_some (tv sv : Value) : mergeSpecAt tv (some sv) = mergeSpec tv sv := by
  unfold mergeSpecAt
  rfl

theorem mergeSpecAt_none (tv : Value) : mergeSpecAt tv none = tv := by
  unfold mergeSpecAt
  rfl

theorem mergeSpecUpd_nil (smap : List (String × Value)) :
    mergeSpecUpd [] smap = [] := by
  unfold mergeSpecUpd
  rfl

theorem mergeSpecUpd_cons (k : String) (tv : Value)
    (rest smap : List (String × Value)) :
    mergeSpecUpd ((k, tv) :: rest) smap =
      (k, mergeSpecAt tv (lookupKV smap k)) :: mergeSpecUpd rest smap := by
  conv_lhs => rw [mergeSpecUpd.eq_def]

theorem mergeSpecUpd_nil_right (l : List (String × Value)) :
    mergeSpecUpd l [] = l := by
  induction l with
  | nil => exact mergeSpecUpd_nil []
  | cons p rest ih =>
    obtain ⟨k, tv⟩ := p
    simp [mergeSpecUpd_cons, lookupKV, mergeSpecAt_none, ih]

theorem mergeSpec_arr (t : Value) (xs : List Value) :
    mergeSpec t (.arr xs) = .arr xs := by
  unfold mergeSpec
  rfl

theorem mergeSpec_null (t : Value) : mergeSpec t .null = .null := by
  unfold mergeSpec
  rfl

theorem mergeSpec_bool (t : Value) (b : Bool) : mergeSpec t (.bool b) = .bool b := by
  unfold mergeSpec
  rfl

theorem mergeSpec_num (t : Value) (n : Int) : mergeSpec t (.num n) = .num n := by
  unfold mergeSpec
  rfl

theorem mergeSpec_str (t : Value) (s : String) : mergeSpec t (.str s) = .str s := by
  unfold mergeSpec
  rfl

theorem forall_ne_of_lookupKV_none {α : Type} (l : List (String × α)) (k : String)
    (h : lookupKV l k = none) : ∀ p ∈ l, p.1 ≠ k := by
  induction l with
  | nil => simp
  | cons q rest ih =>
    obtain ⟨k', v'⟩ := q
    simp only [lookupKV] at h
    by_cases hk : k' = k
    · simp [hk] at h
    · intro p hp
      rcases List.mem_cons.mp hp with rfl | hp'
      · exact hk
      · exact ih (by simpa [hk] using h) p hp'

theorem filter_congr_mem {α : Type} (l : List α) (p q : α → Bool)
    (h : ∀ x ∈ l, p x = q x) : l.filter p = l.filter q := by
  induction l with
  | nil => rfl
  | cons a t ih =>
    have ha := h a (List.mem_cons_self a t)
    have ht := ih (fun x hx => h x (List.mem_cons_of_mem _ hx))
    simp only [List.filter_cons, ha, ht]

theorem mergeSpecUpd_congr (tmap s₁ s₂ : List (String × Value))
    (h : ∀ p ∈ tmap, lookupKV s₁ p.1 = lookupKV s₂ p.1) :
    mergeSpecUpd tmap s₁ = mergeSpecUpd tmap s₂ := by
  induction tmap with
  | nil => rw [mergeSpecUpd_nil, mergeSpecUpd_nil]
  | cons p rest ih =>
    obtain ⟨k, tv⟩ := p
    rw [mergeSpecUpd_cons, mergeSpecUpd_cons,
      h (k, tv) (List.mem_cons_self _ _),
      ih (fun q hq => h q (List.mem_cons_of_mem _ hq))]

theorem mergeSpecUpd_append (l₁ l₂ smap : List (String × Value)) :
    mergeSpecUpd (l₁ ++ l₂) smap = mergeSpecUpd l₁ smap ++ mergeSpecUpd l₂ smap := by
  induction l₁ with
  | nil => simp [mergeSpecUpd_nil]
  | cons p rest ih =>
    obtain ⟨k, tv⟩ := p
    simp [mergeSpecUpd_cons, ih]

/-- Spec-side counterpart of one step of the code's source-entry loop when
the source key is already present in the accumulated target map. -/
theorem mergeSpecUpd_step_found (acc : List (String × Value)) (k : String)
    (v tv : Value) (rest : List (String × Value))
    (hacc : nodupKeysB acc = true) (hrk : lookupKV rest k = none)
    (htv : lookupKV acc k = some tv) :
    mergeSpecUpd acc ((k, v) :: rest) = mergeSpecUpd (setKV acc k (mergeSpec tv v)) rest := by
  induction acc with
  | nil => simp [lookupKV] at htv
  | cons q acc' ih =>
    obtain ⟨j, tj⟩ := q
    simp only [nodupKeysB, Bool.and_eq_true, Option.isNone_iff_eq_none] at hacc
    by_cases hj : j = k
    · subst hj
      have htj : tj = tv := by simpa [lookupKV] using htv
      subst htj
      have hset : setKV ((j, tj) :: acc') j (mergeSpec tj v) = (j, mergeSpec tj v) :: acc' := by
        simp [setKV]
      rw [hset, mergeSpecUpd_cons, mergeSpecUpd_cons]
      rw [show lookupKV ((j, v) :: rest) j = some v from by simp [lookupKV]]
      rw [hrk, mergeSpecAt_some, mergeSpecAt_none]
      have hcongr : mergeSpecUpd acc' ((j, v) :: rest) = mergeSpecUpd acc' rest := by
        apply mergeSpecUpd_congr
        intro p hp
        have hne := forall_ne_of_lookupKV_none acc' j hacc.1 p hp
        have hne' : ¬ j = p.1 := fun hh => hne hh.symm
        simp [lookupKV, hne']
      rw [hcongr]
    · have htv' : lookupKV acc' k = some tv := by simpa [lookupKV, hj] using htv
      have hset : setKV ((j, tj) :: acc') k (mergeSpec tv v) =
          (j, tj) :: setKV acc' k (mergeSpec tv v) := by
        simp [setKV, hj]
      rw [hset, mergeSpecUpd_cons, mergeSpecUpd_cons]
      have hkj : ¬ k = j := fun hh => hj hh.symm
      rw [show lookupKV ((k, v) :: rest) j = lookupKV rest j from by simp [lookupKV, hkj]]
      rw [ih hacc.2 htv']

theorem mergeSpecEntries_step_found (acc : List (String × Value)) (k : String)
    (v tv : Value) (rest : List (String × Value))
    (hacc : nodupKeysB acc = true) (hrk : lookupKV rest k = none)
    (htv : lookupKV acc k = some tv) :
    mergeSpecEntries acc ((k, v) :: rest) =
      mergeSpecEntries (setKV acc k (mergeSpec tv v)) rest := by
  unfold mergeSpecEntries
  rw [mergeSpecUpd_step_found acc k v tv rest hacc hrk htv]
  congr 1
  rw [List.filter_cons]
  simp only [htv, Option.isNone_some, Bool.false_eq_true, if_false]
  apply filter_congr_mem
  intro p hp
  have hne := forall_ne_of_lookupKV_none rest k hrk p hp
  rw [lookupKV_setKV_ne acc k p.1 (mergeSpec tv v) hne]

theorem mergeSpecEntries_step_absent (acc : List (String × Value)) (k : String)
    (v : Value) (rest : List (String × Value))
    (hrk : lookupKV rest k = none) (habs : lookupKV acc k = none) :
    mergeSpecEntries acc ((k, v) :: rest) = mergeSpecEntries (setKV acc k v) rest := by
  unfold mergeSpecEntries
  rw [setKV_of_absent acc k v habs]
  rw [mergeSpecUpd_append]
  rw [show mergeSpecUpd [(k, v)] rest = [(k, v)] from by
    rw [mergeSpecUpd_cons, mergeSpecUpd_nil, hrk, mergeSpecAt_none]]
  rw [show mergeSpecUpd acc ((k, v) :: rest) = mergeSpecUpd acc rest from by
    apply mergeSpecUpd_congr
    intro p hp
    have hne := forall_ne_of_lookupKV_none acc k habs p hp
    have hne' : ¬ k = p.1 := fun hh => hne hh.symm
    simp [lookupKV, hne']]
  rw [List.filter_cons]
  simp only [habs, Option.isNone_none, if_true]
  rw [show rest.filter (fun p => (lookupKV (acc ++ [(k, v)]) p.1).isNone)
      = rest.filter (fun p => (lookupKV acc p.1).isNone) from by
    apply filter_congr_mem
    intro p hp
    have hne := forall_ne_of_lookupKV_none rest k hrk p hp
    have hsingle : lookupKV [(k, v)] p.1 = none := by
      have hne' : ¬ k = p.1 := fun hh => hne hh.symm
      simp [lookupKV, hne']
    rw [lookupKV_append]
    cases hx : lookupKV acc p.1 <;> simp [hsingle]]
  simp

theorem mergeEntries_cons (acc : List (String × Value)) (k : String) (v : Value)
    (rest : List (String × Value)) :
    mergeEntries acc ((k, v) :: rest) =
      mergeEntries (setKV acc k (match lookupKV acc k with
        | some tv => merge_replace_arrays tv v
        | none => v)) rest := rfl

theorem mergeEntries_cons_found (acc : List (String × Value)) (k : String)
    (v tv : Value) (rest : List (String × Value)) (h : lookupKV acc k = some tv) :
    mergeEntries acc ((k, v) :: rest) =
      mergeEntries (setKV acc k (merge_replace_arrays tv v)) rest := by
  rw [mergeEntries_cons, h]

theorem mergeEntries_cons_absent (acc : List (String × Value)) (k : String)
    (v : Value) (rest : List (String × Value)) (h : lookupKV acc k = none) :
    mergeEntries acc ((k, v) :: rest) = mergeEntries (setKV acc k v) rest := by
  rw [mergeEntries_cons, h]

/-- The object-entry loop of the code merge agrees with the spec-side
per-key description, given unique keys throughout and well-formed looked-up
values, assuming the recursive agreement on all source entry values. -/
theorem mergeEntries_eq_mergeSpecEntries (smap : List (String × Value)) :
    ∀ acc : List (String × Value),
      (∀ p ∈ smap, ∀ tv : Value, wfValue tv = true → wfValue p.2 = true →
        merge_replace_arrays tv p.2 = mergeSpec tv p.2) →
      nodupKeysB smap = true → wfEntries smap = true →
      nodupKeysB acc = true →
      (∀ p ∈ smap, ∀ tv : Value, lookupKV acc p.1 = some tv → wfValue tv = true) →
      mergeEntries acc smap = mergeSpecEntries acc smap := by
  induction smap with
  | nil =>
    intro acc _ _ _ _ _
    show acc = mergeSpecEntries acc []
    simp [mergeSpecEntries, mergeSpecUpd_nil_right]
  | cons q rest ih =>
    obtain ⟨k, v⟩ := q
    intro acc hmg hnd hwf hacc haccwf
    simp only [nodupKeysB, Bool.and_eq_true, Option.isNone_iff_eq_none] at hnd
    rw [show wfEntries ((k, v) :: rest) = (wfValue v && wfEntries rest) from rfl] at hwf
    simp only [Bool.and_eq_true] at hwf
    have hmgrest : ∀ p ∈ rest, ∀ tv : Value, wfValue tv = true → wfValue p.2 = true →
        merge_replace_arrays tv p.2 = mergeSpec tv p.2 :=
      fun p hp => hmg p (List.mem_cons_of_mem _ hp)
    cases hak : lookupKV acc k with
    | some tv =>
      have haccwf' : ∀ p ∈ rest, ∀ tv' : Value,
          lookupKV (setKV acc k (mergeSpec tv v)) p.1 = some tv' → wfValue tv' = true := by
        intro p hp tv' hl
        have hne := forall_ne_of_lookupKV_none rest k hnd.1 p hp
        rw [lookupKV_setKV_ne acc k p.1 _ hne] at hl
        exact haccwf p (List.mem_cons_of_mem _ hp) tv' hl
      have htvwf : wfValue tv = true := haccwf (k, v) (List.mem_cons_self _ _) tv hak
      have hmv : merge_replace_arrays tv v = mergeSpec tv v :=
        hmg (k, v) (List.mem_cons_self _ _) tv htvwf hwf.1
      rw [mergeEntries_cons_found acc k v tv rest hak, hmv]
      rw [ih (setKV acc k (mergeSpec tv v)) hmgrest hnd.2 hwf.2
        (nodupKeysB_setKV acc k _ hacc) haccwf']
      exact (mergeSpecEntries_step_found acc k v tv rest hacc hnd.1 hak).symm
    | none =>
      have haccwf' : ∀ p ∈ rest, ∀ tv' : Value,
          lookupKV (setKV acc k v) p.1 = some tv' → wfValue tv' = true := by
        intro p hp tv' hl
        have hne := forall_ne_of_lookupKV_none rest k hnd.1 p hp
        rw [lookupKV_setKV_ne acc k p.1 _ hne] at hl
        exact haccwf p (List.mem_cons_of_mem _ hp) tv' hl
      rw [mergeEntries_cons_absent acc k v rest hak]
      rw [ih (setKV acc k v) hmgrest hnd.2 hwf.2
        (nodupKeysB_setKV acc k _ hacc) haccwf']
      exact (mergeSpecEntries_step_absent acc k v rest hnd.1 hak).symm

theorem nodup_objEntries_of_wf (t : Value) (h : wfValue t = true) :
    nodupKeysB (objEntries t) = true := by
  cases t with
  | obj m =>
    rw [show wfValue (.obj m) = (nodupKeysB m && wfEntries m) from rfl] at h
    simp only [Bool.and_eq_true] at h
    exact h.1
  | null => rfl
  | bool b => rfl
  | num n => rfl
  | str s => rfl
  | arr xs => rfl

theorem wf_lookup_objEntries (t : Value) (k : String) (tv : Value)
    (h : wfValue t = true) (hl : lookupKV (objEntries t) k = some tv) :
    wfValue tv = true := by
  cases t with
  | obj m =>
    rw [show wfValue (.obj m) = (nodupKeysB m && wfEntries m) from rfl] at h
    simp only [Bool.and_eq_true] at h
    exact wfEntries_lookup m k tv h.2 hl
  | null => simp [objEntries, lookupKV] at hl
  | bool b => simp [objEntries, lookupKV] at hl
  | num n => simp [objEntries, lookupKV] at hl
  | str s => simp [objEntries, lookupKV] at hl
  | arr xs => simp [objEntries, lookupKV] at hl

theorem merge_replace_arrays_eq_mergeSpec_aux :
    ∀ (n : Nat) (s t : Value), sizeOf s ≤ n → wfValue t = true → wfValue s = true →
      merge_replace_arrays t s = mergeSpec t s := by
  intro n
  induction n with
  | zero =>
    intro s t hle _ _
    exfalso
    have hpos : 0 < sizeOf s := by cases s <;> simp_arith
    omega
  | succ n ihn =>
    intro s t hs hwt hws
    cases s with
    | null => rw [merge_replace_arrays_null, mergeSpec_null]
    | bool b => rw [merge_replace_arrays_bool, mergeSpec_bool]
    | num m => rw [merge_replace_arrays_num, mergeSpec_num]
    | str st => rw [merge_replace_arrays_str, mergeSpec_str]
    | arr xs => rw [merge_replace_arrays_arr, mergeSpec_arr]
    | obj smap =>
      rw [merge_replace_arrays_obj, mergeSpec_obj]
      rw [show wfValue (.obj smap) = (nodupKeysB smap && wfEntries smap) from rfl] at hws
      simp only [Bool.and_eq_true] at hws
      congr 1
      apply mergeEntries_eq_mergeSpecEntries smap (objEntries t) ?_ hws.1 hws.2
        (nodup_objEntries_of_wf t hwt) ?_
      · intro p hp tv hwtv hwp
        obtain ⟨pk, pv⟩ := p
        apply ihn pv tv ?_ hwtv hwp
        have h1 := List.sizeOf_lt_of_mem hp
        simp only [Prod.mk.sizeOf_spec] at h1
        have h2 : sizeOf (Value.obj smap) = 1 + sizeOf smap := by simp
        omega
      · intro p hp tv hl
        exact wf_lookup_objEntries t p.1 tv hwt hl

/-- Claim C3: For every pair of Structured Values (target, source) — mappings
carrying the data model's unique-keys invariant (`wfValue`) — the code's
`merge_replace_arrays` equals the reference definition `mergeSpec` written
from the spec's words: a sequence source is returned verbatim; a mapping
source combines all keys of target (non-mapping target treated as empty)
with all keys of source, recursing on keys present in both and copying
source-only keys verbatim; any other source (scalar or null) is returned
verbatim, fully overwriting the target. -/
theorem merge_matches_reference_definition (target source : Value)
    (htarget : wfValue target = true) (hsource : wfValue source = true) :
    merge_replace_arrays target source = mergeSpec target source :=
  merge_replace_arrays_eq_mergeSpec_aux (sizeOf source) source target le_rfl htarget hsource

/-- Witness for C3 at a concrete pair of nested objects. -/
theorem merge_matches_reference_definition_witness :
    wfValue (Value.obj [("a", .num 1), ("b", .obj [("x", .num 2), ("y", .num 3)])]) = true ∧
    wfValue (Value.obj [("b", .obj [("y", .num 9)]), ("c", .arr [.num 4])]) = true ∧
    merge_replace_arrays
        (Value.obj [("a", .num 1), ("b", .obj [("x", .num 2), ("y", .num 3)])])
        (Value.obj [("b", .obj [("y", .num 9)]), ("c", .arr [.num 4])]) =
      mergeSpec
        (Value.obj [("a", .num 1), ("b", .obj [("x", .num 2), ("y", .num 3)])])
        (Value.obj [("b", .obj [("y", .num 9)]), ("c", .arr [.num 4])]) :=
  ⟨rfl, rfl, merge_matches_reference_definition _ _ rfl rfl⟩

/-! ## Per-key fold characterization (spec §8, precedence invariant) -/

/-- Merge of two optional per-key contributions: an absent side is the
identity, two present values go through the structural merge. -/
def mergeOpt : Option Value → Option Value → Option Value
  | t, none => t
  | none, some s => some s
  | some t, some s => some (merge_replace_arrays t s)

theorem merge_replace_arrays_nonobj (t v : Value) (h : ∀ m, v ≠ Value.obj m) :
    merge_replace_arrays t v = v := by
  cases v with
  | obj m => exact absurd rfl (h m)
  | null => rfl
  | bool b => rfl
  | num n => rfl
  | str s => rfl
  | arr xs => rfl

theorem lookupKV_objEntries_merge (a : Value) (bmap : List (String × Value))
    (k : String) (hnd : nodupKeysB bmap = true) :
    lookupKV (objEntries (merge_replace_arrays a (.obj bmap))) k
      = mergeOpt (lookupKV (objEntries a) k) (lookupKV bmap k) := by
  rw [merge_replace_arrays_obj]
  rw [show objEntries (Value.obj (mergeEntries (objEntries a) bmap))
      = mergeEntries (objEntries a) bmap from rfl]
  rw [lookupKV_mergeEntries bmap (objEntries a) hnd k]
  cases hb : lookupKV bmap k <;> cases ha : lookupKV (objEntries a) k <;> simp [mergeOpt]

/-- Claim C2: For every key and every triple of file, remote and env source
mappings (with the unique keys the Rust `HashMap`s guarantee), the merged
configuration produced by folding `merge_replace_arrays` over
empty → file → remote → env resolves each key to
`mergeOpt (mergeOpt file remote) env` — env beats remote beats file after
per-key structural merging — while a key present in no higher-precedence
source keeps its file value unchanged, and a non-mapping env value wins
verbatim. -/
theorem merge_fold_precedence (F R E : List (String × Value)) (k : String)
    (hF : nodupKeysB F = true) (hR : nodupKeysB R = true) (hE : nodupKeysB E = true) :
    lookupKV (objEntries (merge_replace_arrays (merge_replace_arrays
        (merge_replace_arrays (.obj []) (.obj F)) (.obj R)) (.obj E))) k
      = mergeOpt (mergeOpt (lookupKV F k) (lookupKV R k)) (lookupKV E k)
    ∧ (lookupKV R k = none → lookupKV E k = none →
        lookupKV (objEntries (merge_replace_arrays (merge_replace_arrays
          (merge_replace_arrays (.obj []) (.obj F)) (.obj R)) (.obj E))) k
          = lookupKV F k)
    ∧ (∀ v : Value, lookupKV E k = some v → (∀ m, v ≠ Value.obj m) →
        lookupKV (objEntries (merge_replace_arrays (merge_replace_arrays
          (merge_replace_arrays (.obj []) (.obj F)) (.obj R)) (.obj E))) k
          = some v) := by
  have hmain : lookupKV (objEntries (merge_replace_arrays (merge_replace_arrays
      (merge_replace_arrays (.obj []) (.obj F)) (.obj R)) (.obj E))) k
      = mergeOpt (mergeOpt (lookupKV F k) (lookupKV R k)) (lookupKV E k) := by
    rw [lookupKV_objEntries_merge _ E k hE]
    rw [lookupKV_objEntries_merge _ R k hR]
    rw [lookupKV_objEntries_merge _ F k hF]
    rw [show lookupKV (objEntries (Value.obj ([] : List (String × Value)))) k
        = none from rfl]
    cases hf : lookupKV F k <;> simp [mergeOpt]
  refine ⟨hmain, ?_, ?_⟩
  · intro hRn hEn
    rw [hmain, hRn, hEn]
    cases hf : lookupKV F k <;> simp [mergeOpt]
  · intro v hEv hvno
    rw [hmain, hEv]
    cases hx : mergeOpt (lookupKV F k) (lookupKV R k) with
    | none => simp [mergeOpt]
    | some t => simp [mergeOpt, merge_replace_arrays_nonobj t v hvno]

/-- Witness for C2: env wins over remote wins over file at `"API_URL"`. -/
theorem merge_fold_precedence_witness :
    lookupKV (objEntries (merge_replace_arrays (merge_replace_arrays
        (merge_replace_arrays (.obj [])
          (.obj [("API_URL", Value.str "http://file-api"), ("FILE_ONLY", Value.str "f")]))
          (.obj [("API_URL", Value.str "http://remote-api")]))
          (.obj [("API_URL", Value.str "http://env-api")]))) "API_URL"
      = some (Value.str "http://env-api") :=
  (merge_fold_precedence
      [("API_URL", Value.str "http://file-api"), ("FILE_ONLY", Value.str "f")]
      [("API_URL", Value.str "http://remote-api")]
      [("API_URL", Value.str "http://env-api")]
      "API_URL" rfl rfl rfl).2.2 (Value.str "http://env-api") rfl
    (fun m h => Value.noConfusion h)

/-! ## Deferred Resolver (`deferred.rs`) -/

/-- A deferred config value (`DeferredValue` in `deferred.rs`): a function
from the merged-config snapshot to the computed value. -/
def DeferredValue : Type := List (String × Value) → Value

/-- Translation of `resolve_deferred` from `deferred.rs`: take a snapshot of
the config, then insert each resolver's output under its key.  The Rust
iterates a `HashMap`; the embedding folds over an association list, and
order independence is proved as part of C4. -/
def resolve_deferred (config : List (String × Value))
    (deferred : List (String × DeferredValue)) : List (String × Value) :=
  let snapshot := config
  deferred.foldl (fun cfg p => setKV cfg p.1 (p.2 snapshot)) config

theorem resolve_deferred_foldl (snapshot : List (String × Value)) :
    ∀ (ds : List (String × DeferredValue)) (cfg : List (String × Value)),
      nodupKeysB ds = true → ∀ k,
      lookupKV (ds.foldl (fun c p => setKV c p.1 (p.2 snapshot)) cfg) k =
        match lookupKV ds k with
        | some r => some (r snapshot)
        | none => lookupKV cfg k := by
  intro ds
  induction ds with
  | nil => intro cfg _ k; simp [lookupKV]
  | cons p rest ih =>
    intro cfg hnd k
    obtain ⟨k₀, r₀⟩ := p
    simp only [nodupKeysB, Bool.and_eq_true, Option.isNone_iff_eq_none] at hnd
    simp only [List.foldl_cons]
    rw [ih (setKV cfg k₀ (r₀ snapshot)) hnd.2 k]
    by_cases h : k₀ = k
    · subst h
      rw [hnd.1]
      simp [lookupKV, lookupKV_setKV_self]
    · have hne : k ≠ k₀ := fun hh => h hh.symm
      cases hx : lookupKV rest k
      · simp [hx, lookupKV, h, lookupKV_setKV_ne cfg k₀ k _ hne]
      · simp [hx, lookupKV, h]

theorem lookupKV_eq_none_iff {α : Type} (l : List (String × α)) (k : String) :
    lookupKV l k = none ↔ k ∉ l.map Prod.fst := by
  induction l with
  | nil => simp [lookupKV]
  | cons p rest ih =>
    obtain ⟨k', v'⟩ := p
    by_cases h : k' = k
    · subst h
      simp [lookupKV]
    · simp [lookupKV, h, ih, Ne.symm h]

theorem nodupKeysB_iff_nodup {α : Type} (l : List (String × α)) :
    nodupKeysB l = true ↔ (l.map Prod.fst).Nodup := by
  induction l with
  | nil => simp [nodupKeysB]
  | cons p rest ih =>
    obtain ⟨k, v⟩ := p
    simp only [nodupKeysB, Bool.and_eq_true, Option.isNone_iff_eq_none,
      List.map_cons, List.nodup_cons, ih, lookupKV_eq_none_iff]

theorem lookupKV_perm {α : Type} {l₁ l₂ : List (String × α)} (h : l₁.Perm l₂) :
    nodupKeysB l₁ = true → ∀ k, lookupKV l₁ k = lookupKV l₂ k := by
  induction h with
  | nil => intro _ _; rfl
  | cons x h ih =>
    intro hnd k
    obtain ⟨kx, vx⟩ := x
    simp only [nodupKeysB, Bool.and_eq_true] at hnd
    simp only [lookupKV]
    rw [ih hnd.2 k]
  | swap x y l =>
    intro hnd k
    obtain ⟨kx, vx⟩ := x
    obtain ⟨ky, vy⟩ := y
    simp only [nodupKeysB, Bool.and_eq_true, Option.isNone_iff_eq_none,
      lookupKV] at hnd
    by_cases h1 : ky = k <;> by_cases h2 : kx = k
    · exfalso
      subst h1
      subst h2
      simp at hnd
    · simp [lookupKV, h1, h2]
    · simp [lookupKV, h1, h2]
    · simp [lookupKV, h1, h2]
  | trans h₁ h₂ ih₁ ih₂ =>
    intro hnd k
    have hmid : nodupKeysB _ = true :=
      (nodupKeysB_iff_nodup _).mpr
        (((h₁.map Prod.fst).nodup_iff).mp ((nodupKeysB_iff_nodup _).mp hnd))
    rw [ih₁ hnd k, ih₂ hmid k]

/-- Claim C4: Deferred resolution passes the identical pre-resolution snapshot
of the merged configuration to every resolver: in the resolved map each
deferred key is bound to its resolver applied to the original `config` (not
to any other resolver's output), every other key is unchanged, and — for
deferred registries with unique keys, as `HashMap` guarantees — the result
is independent of the order in which resolvers are invoked. -/
theorem resolve_deferred_snapshot_isolation (config : List (String × Value))
    (deferred : List (String × DeferredValue))
    (hnd : nodupKeysB deferred = true) :
    (∀ k, lookupKV (resolve_deferred config deferred) k =
      match lookupKV deferred k with
      | some r => some (r config)
      | none => lookupKV config k)
    ∧ (∀ deferred' : List (String × DeferredValue), deferred.Perm deferred' →
        ∀ k, lookupKV (resolve_deferred config deferred') k =
          lookupKV (resolve_deferred config deferred) k) := by
  have hrd : ∀ ds : List (String × DeferredValue), resolve_deferred config ds
      = ds.foldl (fun c p => setKV c p.1 (p.2 config)) config := fun _ => rfl
  constructor
  · intro k
    rw [hrd]
    exact resolve_deferred_foldl config deferred config hnd k
  · intro d' hperm k
    have hnd' : nodupKeysB d' = true :=
      (nodupKeysB_iff_nodup _).mpr
        (((hperm.map Prod.fst).nodup_iff).mp ((nodupKeysB_iff_nodup _).mp hnd))
    rw [hrd, hrd]
    rw [resolve_deferred_foldl config d' config hnd' k,
      resolve_deferred_foldl config deferred config hnd k,
      lookupKV_perm hperm hnd k]

/-- Witness for C4: resolver `"B"` sees the pre-resolution snapshot, in
which resolver `"A"`'s output is absent. -/
theorem resolve_deferred_snapshot_isolation_witness :
    lookupKV (resolve_deferred [("BASE", Value.str "hello")]
      [("A", fun _ => Value.str "a-val"),
       ("B", fun c => Value.bool (lookupKV c "A").isSome)]) "B"
      = some (Value.bool false) :=
  ((resolve_deferred_snapshot_isolation [("BASE", Value.str "hello")]
      [("A", fun _ => Value.str "a-val"),
       ("B", fun c => Value.bool (lookupKV c "A").isSome)] rfl).1 "B").trans rfl

/-! ## Error type and boolean coercion (`utils.rs`) -/

/-- Model of `SmooaiConfigError` from `utils.rs`. -/
structure SmooaiConfigError where
  message : String
deriving Repr, DecidableEq

/-- Model of `SmooaiConfigError::new` prepends the standard `[Smooai Config] ` tag. -/
def SmooaiConfigError.new (message : String) : SmooaiConfigError :=
  ⟨"[Smooai Config] " ++ message⟩

/-- ASCII whitespace test (the whitespace `str::trim` strips from config
values). -/
def isWsChar (c : Char) : Bool := c = ' ' ∨ c = '\t' ∨ c = '\n' ∨ c = '\r'

/-- Rendering of Rust `str::trim`, written over the character list so the
kernel can evaluate it. -/
def trimString (s : String) : String :=
  String.mk (((s.data.dropWhile isWsChar).reverse.dropWhile isWsChar).reverse)

/-- ASCII lowercasing of one character. -/
def lowerChar (c : Char) : Char :=
  if 'A' ≤ c ∧ c ≤ 'Z' then Char.ofNat (c.toNat + 32) else c

/-- Rendering of Rust `str::to_lowercase` (config values are ASCII),
written over the character list so the kernel can evaluate it. -/
def lowerString (s : String) : String := String.mk (s.data.map lowerChar)

/-- Model of `coerce_boolean` from `utils.rs`: trimmed, lowercased "true" or "1". -/
def coerce_boolean (value : String) : Bool :=
  let lower := lowerString (trimString value)
  lower == "true" || lower == "1"

/-! ## Cloud provider/region detection (`cloud_region.rs`) -/

/-- Environment snapshot: the variable-name → value map. -/
abbrev EnvMap := List (String × String)

/-- Model of `CloudRegionResult` from `cloud_region.rs`. -/
structure CloudRegionResult where
  provider : String
  region : String
deriving Repr, DecidableEq

/-- Model of `get_cloud_region_from_env` from `cloud_region.rs`: custom override,
then AWS, Azure, GCP variables, then unknown/unknown. -/
def get_cloud_region_from_env (env : EnvMap) : CloudRegionResult :=
  if (lookupKV env "SMOOAI_CONFIG_CLOUD_REGION").isSome
      || (lookupKV env "SMOOAI_CONFIG_CLOUD_PROVIDER").isSome then
    { provider := (lookupKV env "SMOOAI_CONFIG_CLOUD_PROVIDER").getD "unknown"
      region := (lookupKV env "SMOOAI_CONFIG_CLOUD_REGION").getD "unknown" }
  else
    match (lookupKV env "AWS_REGION").or (lookupKV env "AWS_DEFAULT_REGION") with
    | some region => { provider := "aws", region := region }
    | none =>
      match (lookupKV env "AZURE_REGION").or (lookupKV env "AZURE_LOCATION") with
      | some region => { provider := "azure", region := region }
      | none =>
        match (lookupKV env "GOOGLE_CLOUD_REGION").or
            (lookupKV env "CLOUDSDK_COMPUTE_REGION") with
        | some region => { provider := "gcp", region := region }
        | none => { provider := "unknown", region := "unknown" }

/-! ## File Loader (`file_config.rs`) -/

/-- Outcome of reading one config-file path: absent
(`ErrorKind::NotFound`), unreadable (any other I/O error, with its
message), or present with a parse outcome (`Except.error` carries the
serde parse diagnostic). -/
inductive FileResult where
  | missing : FileResult
  | unreadable : String → FileResult
  | content : Except String Value → FileResult

/-- The filesystem, as a pure map from paths to read outcomes. -/
abbrev FS := String → FileResult

/-- Model of `find_config_directory_with_env` from `file_config.rs`.  The
`SMOOAI_ENV_CONFIG_DIR` branch is translated directly (`isDir` models
`Path::is_dir`); the directory cache, CWD probing and parent-walk branches
(2–4 of the source) are filesystem/CWD I/O, summarized by their combined
outcome `search`. -/
def find_config_directory_with_env (isDir : String → Bool)
    (search : Except SmooaiConfigError String) (env : EnvMap) :
    Except SmooaiConfigError String :=
  match lookupKV env "SMOOAI_ENV_CONFIG_DIR" with
  | some config_dir =>
      if isDir config_dir then .ok config_dir
      else .error (SmooaiConfigError.new
        ("The directory specified in SMOOAI_ENV_CONFIG_DIR does not exist: " ++ config_dir))
  | none => search

/-- The ordered file list built by `find_and_process_file_config_with_env`:
`default.json`, optional `local.json`, then the environment-, provider-,
and region-specific files. -/
def buildFileList (is_local : Bool) (env_name : String) (cloud_region : CloudRegionResult) :
    List String :=
  ["default.json"]
    ++ (if is_local then ["local.json"] else [])
    ++ (if env_name ≠ "" then
          [env_name ++ ".json"]
            ++ (if cloud_region.provider ≠ "unknown" then
                  [env_name ++ "." ++ cloud_region.provider ++ ".json"]
                    ++ (if cloud_region.region ≠ "unknown" then
                          [env_name ++ "." ++ cloud_region.provider ++ "."
                            ++ cloud_region.region ++ ".json"]
                        else [])
                else [])
        else [])

/-- The file-reading loop of `find_and_process_file_config_with_env`:
parse errors and non-NotFound read errors are fatal, a missing
`default.json` is fatal, other missing files are skipped silently. -/
def loadConfigFiles (fs : FS) (config_dir : String) :
    List String → Value → Except SmooaiConfigError Value
  | [], acc => .ok acc
  | file_name :: rest, acc =>
      let file_path := config_dir ++ "/" ++ file_name
      match fs file_path with
      | .content (.ok v) => loadConfigFiles fs config_dir rest (merge_replace_arrays acc v)
      | .content (.error e) =>
          .error (SmooaiConfigError.new ("Error parsing " ++ file_path ++ ": " ++ e))
      | .missing =>
          if file_name = "default.json" then
            .error (SmooaiConfigError.new
              ("Required default.json not found in " ++ config_dir))
          else loadConfigFiles fs config_dir rest acc
      | .unreadable e =>
          .error (SmooaiConfigError.new ("Error reading " ++ file_path ++ ": " ++ e))

/-- The environment name both loaders resolve: `SMOOAI_CONFIG_ENV`, else
`"development"`. -/
def resolvedEnvName (env : EnvMap) : String :=
  (lookupKV env "SMOOAI_CONFIG_ENV").getD "development"

/-- The is-local flag both loaders resolve: `coerce_boolean` of `IS_LOCAL`
(empty string when unset). -/
def resolvedIsLocal (env : EnvMap) : Bool :=
  coerce_boolean ((lookupKV env "IS_LOCAL").getD "")

/-- Model of `find_and_process_file_config_with_env` from `file_config.rs`: find the
directory, load and deep-merge the ordered file list, then insert the four
built-in keys.  `match … | .error e => .error e` renders the `?` operator. -/
def find_and_process_file_config_with_env (isDir : String → Bool)
    (search : Except SmooaiConfigError String) (fs : FS) (env : EnvMap) :
    Except SmooaiConfigError (List (String × Value)) :=
  match find_config_directory_with_env isDir search env with
  | .error e => .error e
  | .ok config_dir =>
    let is_local := resolvedIsLocal env
    let env_name := resolvedEnvName env
    let cloud_region := get_cloud_region_from_env env
    let files := buildFileList is_local env_name cloud_region
    match loadConfigFiles fs config_dir files (.obj []) with
    | .error e => .error e
    | .ok final_config =>
      .ok (setKV (setKV (setKV (setKV (objEntries final_config)
        "ENV" (.str env_name)) "IS_LOCAL" (.bool is_local))
        "REGION" (.str cloud_region.region))
        "CLOUD_PROVIDER" (.str cloud_region.provider))

/-! ## Env Loader (`env_config.rs`) -/

/-- Abstraction of the two string-parsing primitives used by env-var type
coercion: `value.parse::<f64>()` composed with `serde_json::Number::from_f64`
(floating point, hence abstracted), and `serde_json::from_str` (JSON text
parsing).  `none` means the parse failed, upon which the code falls through
to the plain-string insert. -/
structure EnvCoercers where
  parseNumber : String → Option Value
  parseJson : String → Option Value

/-- The per-variable body of the `for (key, value) in env` loop of
`find_and_process_env_config_with_env` (the env-var key-prefix argument of
the source is named `pfx` here). -/
def processOneEnvVar (schema_keys : List String) (pfx : String)
    (schema_types : Option (List (String × String))) (co : EnvCoercers)
    (result : List (String × Value)) (key value : String) :
    List (String × Value) :=
  let key_to_use :=
    if pfx ≠ "" && pfx.data.isPrefixOf key.data then key.drop pfx.length else key
  if !(schema_keys.contains key_to_use) then result
  else
    let fallback := setKV result key_to_use (.str value)
    match schema_types with
    | some types =>
        match lookupKV types key_to_use with
        | some type_hint =>
            if type_hint = "boolean" then
              setKV result key_to_use (.bool (coerce_boolean value))
            else if type_hint = "number" then
              match co.parseNumber value with
              | some w => setKV result key_to_use w
              | none => fallback
            else if type_hint = "json" ∨ type_hint = "object" then
              match co.parseJson value with
              | some w => setKV result key_to_use w
              | none => fallback
            else fallback
        | none => fallback
    | none => fallback

/-- Model of `find_and_process_env_config_with_env` from `env_config.rs`: filter and
coerce the environment variables through the schema, then insert the four
built-in keys.  The Rust iterates a `HashMap`; the embedding folds over the
association list. -/
def find_and_process_env_config_with_env (schema_keys : List String) (pfx : String)
    (schema_types : Option (List (String × String))) (co : EnvCoercers)
    (env : EnvMap) : List (String × Value) :=
  let cloud_region := get_cloud_region_from_env env
  let env_name := resolvedEnvName env
  let is_local := resolvedIsLocal env
  let result := env.foldl
    (fun result p => processOneEnvVar schema_keys pfx schema_types co result p.1 p.2) []
  setKV (setKV (setKV (setKV result
    "ENV" (.str env_name)) "IS_LOCAL" (.bool is_local))
    "REGION" (.str cloud_region.region))
    "CLOUD_PROVIDER" (.str cloud_region.provider)

theorem lookup_builtin_chain (base : List (String × Value)) (en : String)
    (il : Bool) (rg pv : String) :
    lookupKV (setKV (setKV (setKV (setKV base "ENV" (.str en)) "IS_LOCAL" (.bool il))
        "REGION" (.str rg)) "CLOUD_PROVIDER" (.str pv)) "ENV" = some (.str en)
    ∧ lookupKV (setKV (setKV (setKV (setKV base "ENV" (.str en)) "IS_LOCAL" (.bool il))
        "REGION" (.str rg)) "CLOUD_PROVIDER" (.str pv)) "IS_LOCAL" = some (.bool il)
    ∧ lookupKV (setKV (setKV (setKV (setKV base "ENV" (.str en)) "IS_LOCAL" (.bool il))
        "REGION" (.str rg)) "CLOUD_PROVIDER" (.str pv)) "REGION" = some (.str rg)
    ∧ lookupKV (setKV (setKV (setKV (setKV base "ENV" (.str en)) "IS_LOCAL" (.bool il))
        "REGION" (.str rg)) "CLOUD_PROVIDER" (.str pv)) "CLOUD_PROVIDER"
      = some (.str pv) := by
  refine ⟨?_, ?_, ?_, ?_⟩
  · rw [lookupKV_setKV_ne _ _ _ _ (by decide : ("ENV" : String) ≠ "CLOUD_PROVIDER"),
      lookupKV_setKV_ne _ _ _ _ (by decide : ("ENV" : String) ≠ "REGION"),
      lookupKV_setKV_ne _ _ _ _ (by decide : ("ENV" : String) ≠ "IS_LOCAL"),
      lookupKV_setKV_self]
  · rw [lookupKV_setKV_ne _ _ _ _ (by decide : ("IS_LOCAL" : String) ≠ "CLOUD_PROVIDER"),
      lookupKV_setKV_ne _ _ _ _ (by decide : ("IS_LOCAL" : String) ≠ "REGION"),
      lookupKV_setKV_self]
  · rw [lookupKV_setKV_ne _ _ _ _ (by decide : ("REGION" : String) ≠ "CLOUD_PROVIDER"),
      lookupKV_setKV_self]
  · rw [lookupKV_setKV_self]

/-- Claim C10: Both loaders bind the four built-in keys `ENV`, `IS_LOCAL`,
`REGION`, and `CLOUD_PROVIDER` to the values computed from the environment
snapshot, overwriting anything the loaded JSON files (file loader) or the
schema-matched environment variables (env loader) supplied for those keys. -/
theorem builtin_keys_override (env : EnvMap) (isDir : String → Bool)
    (search : Except SmooaiConfigError String) (fs : FS)
    (schema_keys : List String) (pfx : String)
    (schema_types : Option (List (String × String))) (co : EnvCoercers) :
    (∀ m : List (String × Value),
      find_and_process_file_config_with_env isDir search fs env = .ok m →
      lookupKV m "ENV" = some (.str (resolvedEnvName env))
      ∧ lookupKV m "IS_LOCAL" = some (.bool (resolvedIsLocal env))
      ∧ lookupKV m "REGION" = some (.str (get_cloud_region_from_env env).region)
      ∧ lookupKV m "CLOUD_PROVIDER"
          = some (.str (get_cloud_region_from_env env).provider))
    ∧ (lookupKV (find_and_process_env_config_with_env schema_keys pfx
          schema_types co env) "ENV" = some (.str (resolvedEnvName env))
      ∧ lookupKV (find_and_process_env_config_with_env schema_keys pfx
          schema_types co env) "IS_LOCAL" = some (.bool (resolvedIsLocal env))
      ∧ lookupKV (find_and_process_env_config_with_env schema_keys pfx
          schema_types co env) "REGION"
          = some (.str (get_cloud_region_from_env env).region)
      ∧ lookupKV (find_and_process_env_config_with_env schema_keys pfx
          schema_types co env) "CLOUD_PROVIDER"
          = some (.str (get_cloud_region_from_env env).provider)) := by
  constructor
  · intro m hok
    unfold find_and_process_file_config_with_env at hok
    cases hdir : find_config_directory_with_env isDir search env with
    | error e => rw [hdir] at hok; exact absurd hok (by simp)
    | ok config_dir =>
      rw [hdir] at hok
      simp only at hok
      cases hload : loadConfigFiles fs config_dir
          (buildFileList (resolvedIsLocal env) (resolvedEnvName env)
            (get_cloud_region_from_env env)) (.obj []) with
      | error e => rw [hload] at hok; exact absurd hok (by simp)
      | ok final_config =>
        rw [hload] at hok
        simp only [Except.ok.injEq] at hok
        rw [← hok]
        exact lookup_builtin_chain (objEntries final_config) _ _ _ _
  · exact lookup_builtin_chain _ _ _ _ _

/-- Witness for C10: file sets `ENV`, env snapshot says `production` on
AWS; the built-ins win in both loaders' outputs. -/
theorem builtin_keys_override_witness :
    lookupKV [("ENV", Value.str "production"), ("IS_LOCAL", Value.bool false),
        ("REGION", Value.str "us-east-1"), ("CLOUD_PROVIDER", Value.str "aws")]
      "ENV" = some (Value.str "production")
    ∧ lookupKV (find_and_process_env_config_with_env [] "" none
        ⟨fun _ => none, fun _ => none⟩
        [("SMOOAI_ENV_CONFIG_DIR", "/cfg"), ("SMOOAI_CONFIG_ENV", "production"),
          ("AWS_REGION", "us-east-1")]) "CLOUD_PROVIDER" = some (Value.str "aws") :=
  ⟨((builtin_keys_override
      [("SMOOAI_ENV_CONFIG_DIR", "/cfg"), ("SMOOAI_CONFIG_ENV", "production"),
        ("AWS_REGION", "us-east-1")]
      (fun _ => true) (.error (SmooaiConfigError.new "unused"))
      (fun p => if p = "/cfg/default.json"
        then FileResult.content (.ok (.obj [("ENV", Value.str "from-file")]))
        else FileResult.missing)
      [] "" none ⟨fun _ => none, fun _ => none⟩).1
      [("ENV", Value.str "production"), ("IS_LOCAL", Value.bool false),
        ("REGION", Value.str "us-east-1"), ("CLOUD_PROVIDER", Value.str "aws")]
      (by rfl)).1,
   ((builtin_keys_override
      [("SMOOAI_ENV_CONFIG_DIR", "/cfg"), ("SMOOAI_CONFIG_ENV", "production"),
        ("AWS_REGION", "us-east-1")]
      (fun _ => true) (.error (SmooaiConfigError.new "unused"))
      (fun p => if p = "/cfg/default.json"
        then FileResult.content (.ok (.obj [("ENV", Value.str "from-file")]))
        else FileResult.missing)
      [] "" none ⟨fun _ => none, fun _ => none⟩).2).2.2.2⟩

/-! ## Resolution Manager (`config_manager.rs`) -/

/-- Cache tier selector.  The Rust passes a function pointer
(`cache_selector`) choosing one of the three cache fields; the embedding
indexes them with an explicit tier. -/
inductive Tier where
  | public : Tier
  | secret : Tier
  | feature_flag : Tier
deriving DecidableEq, Repr

/-- Model of `CacheEntry` from `config_manager.rs` (`Instant` modelled in seconds). -/
structure CacheEntry where
  value : Value
  expires_at : Nat
deriving Repr

/-- Model of `ManagerInner` from `config_manager.rs`. -/
structure ManagerInner where
  initialized : Bool
  config : List (String × Value)
  public_cache : List (String × CacheEntry)
  secret_cache : List (String × CacheEntry)
  feature_flag_cache : List (String × CacheEntry)
deriving Repr

/-- Tier-indexed read of a cache field. -/
def ManagerInner.cache (s : ManagerInner) : Tier → List (String × CacheEntry)
  | .public => s.public_cache
  | .secret => s.secret_cache
  | .feature_flag => s.feature_flag_cache

/-- Tier-indexed write of a cache field. -/
def ManagerInner.setCache (s : ManagerInner) :
    Tier → List (String × CacheEntry) → ManagerInner
  | .public, c => { s with public_cache := c }
  | .secret, c => { s with secret_cache := c }
  | .feature_flag, c => { s with feature_flag_cache := c }

/-- The fresh inner state built by `ConfigManager::new`. -/
def ManagerInner.new : ManagerInner := ⟨false, [], [], [], []⟩

/-- Model of `DEFAULT_TTL_SECS` from `config_manager.rs` (24 hours). -/
def DEFAULT_TTL_SECS : Nat := 86400

/-- The construction-time parameters of `ConfigManager`, immutable after
the builder calls (`env_prefix` of the source is named `env_pfx`). -/
structure CMParams where
  schema_keys : Option (List String)
  env_pfx : String
  schema_types : Option (List (String × String))
  cache_ttl : Nat
  env_override : Option EnvMap
  api_key : Option String
  base_url : Option String
  org_id : Option String
  environment : Option String
  deferred : List (String × DeferredValue)

/-- The defaults set by `ConfigManager::new`. -/
def CMParams.new : CMParams :=
  ⟨none, "", none, DEFAULT_TTL_SECS, none, none, none, none, none, []⟩

/-- Outcome of the remote `GET …/config/values` call: a 2xx response whose
body parsed to JSON (`some body`) or did not parse (`none`), a non-2xx
response, or a transport error. -/
inductive RemoteOutcome where
  | success : Option Value → RemoteOutcome
  | httpError : RemoteOutcome
  | transportError : RemoteOutcome

/-- The `values` object extracted from a successful remote response; empty
in every other case (`initialize_inner` only logs non-2xx responses and
transport errors). -/
def remoteValues : RemoteOutcome → List (String × Value)
  | .success (some body) =>
      match body with
      | .obj bm =>
          match lookupKV bm "values" with
          | some (.obj vs) => vs
          | _ => []
      | _ => []
  | _ => []

/-- The external world a manager call interacts with — process environment,
filesystem and directory search, remote fetch outcome, string parsers —
all I/O, passed to the embedding as pure inputs. -/
structure World where
  procEnv : EnvMap
  isDir : String → Bool
  searchDir : Except SmooaiConfigError String
  fs : FS
  remote : RemoteOutcome
  co : EnvCoercers

/-- Model of `ConfigManager::get_env`. -/
def CMParams.get_env (p : CMParams) (procEnv : EnvMap) : EnvMap :=
  p.env_override.getD procEnv

/-- Model of `ConfigManager::get_env_var`. -/
def CMParams.get_env_var (p : CMParams) (procEnv : EnvMap) (key : String) :
    Option String :=
  match p.env_override with
  | some env => lookupKV env key
  | none => lookupKV procEnv key

/-- Model of `ConfigManager::resolve_environment`: constructor value, then
`SMOOAI_CONFIG_ENV`, then `"development"`. -/
def CMParams.resolve_environment (p : CMParams) (procEnv : EnvMap) : String :=
  match p.environment with
  | some env => env
  | none =>
    match p.get_env_var procEnv "SMOOAI_CONFIG_ENV" with
    | some val => val
    | none => "development"

/-- Model of `ConfigManager::resolve_param`: constructor value wins, else env var. -/
def CMParams.resolve_param (p : CMParams) (procEnv : EnvMap) (env_var : String)
    (constructor_value : Option String) : Option String :=
  match constructor_value with
  | some val => some val
  | none => p.get_env_var procEnv env_var

namespace ConfigManager

/-- Model of `ConfigManager::initialize_inner`: if not yet initialized, load the
file config **absorbing any error** (`unwrap_or_default`), load the env
config, take the remote values when all three credentials resolve, merge
file < remote < env, resolve deferred values, and mark initialized.  The
source returns `Result` but has no reachable error path. -/
def initialize_inner (p : CMParams) (w : World) (inner : ManagerInner) : ManagerInner :=
  if inner.initialized then inner
  else
    let env := p.get_env w.procEnv
    let file_config :=
      (find_and_process_file_config_with_env w.isDir w.searchDir w.fs env).toOption.getD []
    let schema_keys := p.schema_keys.getD []
    let env_config :=
      find_and_process_env_config_with_env schema_keys p.env_pfx p.schema_types w.co env
    let api_key := p.resolve_param w.procEnv "SMOOAI_CONFIG_API_KEY" p.api_key
    let base_url := p.resolve_param w.procEnv "SMOOAI_CONFIG_API_URL" p.base_url
    let org_id := p.resolve_param w.procEnv "SMOOAI_CONFIG_ORG_ID" p.org_id
    let remote_config :=
      if api_key.isSome && base_url.isSome && org_id.isSome then remoteValues w.remote
      else []
    let merged := merge_replace_arrays (merge_replace_arrays
      (merge_replace_arrays (.obj []) (.obj file_config)) (.obj remote_config))
      (.obj env_config)
    let config :=
      match merged with
      | .obj m => m
      | _ => inner.config
    let config := if !p.deferred.isEmpty then resolve_deferred config p.deferred else config
    { inner with initialized := true, config := config }

/-- The post-cache-miss path of `get_value`: initialize if needed, look the
key up in the merged config, and populate the tier cache on a hit with
expiry `now + cache_ttl`. -/
def get_value_miss (p : CMParams) (w : World) (key : String) (t : Tier) (now : Nat)
    (inner : ManagerInner) : Except SmooaiConfigError (Option Value) × ManagerInner :=
  let inner := initialize_inner p w inner
  match lookupKV inner.config key with
  | some val =>
      (.ok (some val),
        inner.setCache t (setKV (inner.cache t) key ⟨val, now + p.cache_ttl⟩))
  | none => (.ok none, inner)

/-- Model of `ConfigManager::get_value`: serve an unexpired cache entry, evict an
expired one and fall through, otherwise take the miss path.  `now` is the
value of `Instant::now()`.  The write lock cannot be poisoned in the
sequential embedding, so the lock-error branch is unreachable and every
result is `.ok`. -/
def get_value (p : CMParams) (w : World) (key : String) (t : Tier) (now : Nat)
    (inner : ManagerInner) : Except SmooaiConfigError (Option Value) × ManagerInner :=
  let cache := inner.cache t
  match lookupKV cache key with
  | some entry =>
      if now < entry.expires_at then (.ok (some entry.value), inner)
      else get_value_miss p w key t now (inner.setCache t (removeKV cache key))
  | none => get_value_miss p w key t now inner

/-- Model of `get_public_config`. -/
def get_public_config (p : CMParams) (w : World) (key : String) (now : Nat)
    (inner : ManagerInner) : Except SmooaiConfigError (Option Value) × ManagerInner :=
  get_value p w key .public now inner

/-- Model of `get_secret_config`. -/
def get_secret_config (p : CMParams) (w : World) (key : String) (now : Nat)
    (inner : ManagerInner) : Except SmooaiConfigError (Option Value) × ManagerInner :=
  get_value p w key .secret now inner

/-- Model of `get_feature_flag`. -/
def get_feature_flag (p : CMParams) (w : World) (key : String) (now : Nat)
    (inner : ManagerInner) : Except SmooaiConfigError (Option Value) × ManagerInner :=
  get_value p w key .feature_flag now inner

/-- Model of `ConfigManager::invalidate`: reset the flag, clear the merged config
and all three tier caches. -/
def invalidate (inner : ManagerInner) : ManagerInner :=
  { inner with
    initialized := false
    config := []
    public_cache := []
    secret_cache := []
    feature_flag_cache := [] }

end ConfigManager

/-! ## Local-only manager (`local.rs`) -/

/-- The construction-time parameters of `LocalConfigManager`
(`env_prefix` of the source is named `env_pfx`). -/
structure LocalParams where
  schema_keys : Option (List String)
  env_pfx : String
  schema_types : Option (List (String × String))
  cache_ttl : Nat
  env_override : Option EnvMap

/-- The defaults set by `LocalConfigManager::new`. -/
def LocalParams.new : LocalParams := ⟨none, "", none, DEFAULT_TTL_SECS, none⟩

/-- Model of `Inner` from `local.rs`: the two source maps are kept separate — there
is no merged config and no remote tier. -/
structure LocalInner where
  initialized : Bool
  file_config : Option (List (String × Value))
  env_config : Option (List (String × Value))
  public_cache : List (String × CacheEntry)
  secret_cache : List (String × CacheEntry)
  feature_flag_cache : List (String × CacheEntry)
deriving Repr

/-- The fresh inner state built by `LocalConfigManager::new`. -/
def LocalInner.new : LocalInner := ⟨false, none, none, [], [], []⟩

/-- Tier-indexed read of a cache field. -/
def LocalInner.cache (s : LocalInner) : Tier → List (String × CacheEntry)
  | .public => s.public_cache
  | .secret => s.secret_cache
  | .feature_flag => s.feature_flag_cache

/-- Tier-indexed write of a cache field. -/
def LocalInner.setCache (s : LocalInner) :
    Tier → List (String × CacheEntry) → LocalInner
  | .public, c => { s with public_cache := c }
  | .secret, c => { s with secret_cache := c }
  | .feature_flag, c => { s with feature_flag_cache := c }

namespace LocalConfigManager

/-- Model of `LocalConfigManager::initialize_inner`: load the file config —
**propagating its error with `?`** — then the env config, then mark
initialized.  On error nothing is stored and `initialized` stays false. -/
def initialize_inner (p : LocalParams) (w : World) (inner : LocalInner) :
    Except SmooaiConfigError LocalInner :=
  if inner.initialized then .ok inner
  else
    let env := p.env_override.getD w.procEnv
    match find_and_process_file_config_with_env w.isDir w.searchDir w.fs env with
    | .error e => .error e
    | .ok file_config =>
      let schema_keys := p.schema_keys.getD []
      let env_config :=
        find_and_process_env_config_with_env schema_keys p.env_pfx p.schema_types w.co env
      .ok { inner with
        initialized := true
        file_config := some file_config
        env_config := some env_config }

/-- The post-cache-miss path of `LocalConfigManager::get_value`:
initialize (returning any error), then look the key up in the file config
first and the env config second, caching a found value. -/
def get_value_miss (p : LocalParams) (w : World) (key : String) (t : Tier) (now : Nat)
    (inner : LocalInner) : Except SmooaiConfigError (Option Value) × LocalInner :=
  match initialize_inner p w inner with
  | .error e => (.error e, inner)
  | .ok inner =>
    match inner.file_config.bind (fun fc => lookupKV fc key) with
    | some value =>
        (.ok (some value),
          inner.setCache t (setKV (inner.cache t) key ⟨value, now + p.cache_ttl⟩))
    | none =>
      match inner.env_config.bind (fun ec => lookupKV ec key) with
      | some value =>
          (.ok (some value),
            inner.setCache t (setKV (inner.cache t) key ⟨value, now + p.cache_ttl⟩))
      | none => (.ok none, inner)

/-- Model of `LocalConfigManager::get_value`: cache hit, eviction of an expired
entry, then the miss path. -/
def get_value (p : LocalParams) (w : World) (key : String) (t : Tier) (now : Nat)
    (inner : LocalInner) : Except SmooaiConfigError (Option Value) × LocalInner :=
  let cache := inner.cache t
  match lookupKV cache key with
  | some entry =>
      if now < entry.expires_at then (.ok (some entry.value), inner)
      else get_value_miss p w key t now (inner.setCache t (removeKV cache key))
  | none => get_value_miss p w key t now inner

/-- Model of `LocalConfigManager::invalidate`. -/
def invalidate (inner : LocalInner) : LocalInner :=
  { inner with
    initialized := false
    file_config := none
    env_config := none
    public_cache := []
    secret_cache := []
    feature_flag_cache := [] }

end LocalConfigManager

/-! ## Manager-level lemmas and claims -/

theorem cache_setCache_self (s : ManagerInner) (t : Tier)
    (c : List (String × CacheEntry)) : (s.setCache t c).cache t = c := by
  cases t <;> rfl

theorem cache_setCache_ne (s : ManagerInner) (t t' : Tier)
    (c : List (String × CacheEntry)) (h : t' ≠ t) :
    (s.setCache t c).cache t' = s.cache t' := by
  cases t <;> cases t' <;> first | rfl | exact absurd rfl h

theorem config_setCache (s : ManagerInner) (t : Tier)
    (c : List (String × CacheEntry)) : (s.setCache t c).config = s.config := by
  cases t <;> rfl

theorem initialized_setCache (s : ManagerInner) (t : Tier)
    (c : List (String × CacheEntry)) : (s.setCache t c).initialized = s.initialized := by
  cases t <;> rfl

theorem initialize_inner_cache (p : CMParams) (w : World) (s : ManagerInner)
    (t' : Tier) : (ConfigManager.initialize_inner p w s).cache t' = s.cache t' := by
  unfold ConfigManager.initialize_inner
  by_cases h : s.initialized
  · simp [h]
  · simp only [h, Bool.false_eq_true, if_false]
    cases t' <;> rfl

theorem initialize_inner_ready (p : CMParams) (w : World) (s : ManagerInner)
    (h : s.initialized = true) : ConfigManager.initialize_inner p w s = s := by
  unfold ConfigManager.initialize_inner
  simp [h]

theorem initialize_inner_initialized (p : CMParams) (w : World) (s : ManagerInner) :
    (ConfigManager.initialize_inner p w s).initialized = true := by
  unfold ConfigManager.initialize_inner
  by_cases h : s.initialized
  · simpa [h] using h
  · simp only [h, Bool.false_eq_true, if_false]

/-- Model of `ConfigManager::get_value` has no reachable error path in the
sequential embedding (the only `Err` in the source is lock poisoning). -/
theorem cm_get_value_ok (p : CMParams) (w : World) (key : String) (t : Tier)
    (now : Nat) (inner : ManagerInner) :
    ∃ ov : Option Value, (ConfigManager.get_value p w key t now inner).1 = .ok ov := by
  unfold ConfigManager.get_value ConfigManager.get_value_miss
  cases hlk : lookupKV (inner.cache t) key with
  | some entry =>
    by_cases hlt : now < entry.expires_at
    · simp only [hlk]
      rw [if_pos hlt]
      exact ⟨_, rfl⟩
    · simp only [hlk]
      rw [if_neg hlt]
      cases hc : lookupKV (ConfigManager.initialize_inner p w
          (inner.setCache t (removeKV (inner.cache t) key))).config key with
      | some val => simp only [hc]; exact ⟨_, rfl⟩
      | none => simp only [hc]; exact ⟨_, rfl⟩
  | none =>
    simp only [hlk]
    cases hc : lookupKV (ConfigManager.initialize_inner p w inner).config key with
    | some val => simp only [hc]; exact ⟨_, rfl⟩
    | none => simp only [hc]; exact ⟨_, rfl⟩

/-- Claim C7: `invalidate` clears the merged config, resets the initialized
flag to false, and empties all three tier caches, unconditionally in every
manager state; on the fresh (never-initialized) state it changes nothing. -/
theorem invalidate_resets_fully (inner : ManagerInner) :
    (ConfigManager.invalidate inner).initialized = false
    ∧ (ConfigManager.invalidate inner).config = []
    ∧ (ConfigManager.invalidate inner).public_cache = []
    ∧ (ConfigManager.invalidate inner).secret_cache = []
    ∧ (ConfigManager.invalidate inner).feature_flag_cache = []
    ∧ ConfigManager.invalidate ManagerInner.new = ManagerInner.new :=
  ⟨rfl, rfl, rfl, rfl, rfl, rfl⟩

theorem initialize_inner_remote_congr (p : CMParams) (pe : EnvMap)
    (d : String → Bool) (sd : Except SmooaiConfigError String) (fs : FS)
    (co : EnvCoercers) (r r' : RemoteOutcome)
    (h : remoteValues r = remoteValues r') (inner : ManagerInner) :
    ConfigManager.initialize_inner p ⟨pe, d, sd, fs, r, co⟩ inner
      = ConfigManager.initialize_inner p ⟨pe, d, sd, fs, r', co⟩ inner := by
  unfold ConfigManager.initialize_inner
  simp only [h]

theorem get_value_remote_congr (p : CMParams) (pe : EnvMap)
    (d : String → Bool) (sd : Except SmooaiConfigError String) (fs : FS)
    (co : EnvCoercers) (r r' : RemoteOutcome)
    (h : remoteValues r = remoteValues r') (key : String) (t : Tier) (now : Nat)
    (inner : ManagerInner) :
    ConfigManager.get_value p ⟨pe, d, sd, fs, r, co⟩ key t now inner
      = ConfigManager.get_value p ⟨pe, d, sd, fs, r', co⟩ key t now inner := by
  unfold ConfigManager.get_value ConfigManager.get_value_miss
  simp only [initialize_inner_remote_congr p pe d sd fs co r r' h]

/-- Claim C6: A failing remote fetch — non-2xx HTTP status or a transport
error — is never fatal: `get_value` behaves exactly as it does with an
empty remote contribution (a 2xx response whose `values` object is empty),
resolution proceeds from the file and env sources alone, and no error from
the remote fetch reaches the caller (`get_value` returns `.ok`). -/
theorem remote_failure_nonfatal (p : CMParams) (pe : EnvMap)
    (d : String → Bool) (sd : Except SmooaiConfigError String) (fs : FS)
    (co : EnvCoercers) (r : RemoteOutcome)
    (hfail : r = RemoteOutcome.httpError ∨ r = RemoteOutcome.transportError)
    (key : String) (t : Tier) (now : Nat) (inner : ManagerInner) :
    ConfigManager.get_value p ⟨pe, d, sd, fs, r, co⟩ key t now inner
      = ConfigManager.get_value p
          ⟨pe, d, sd, fs, RemoteOutcome.success (some (.obj [("values", .obj [])])), co⟩
          key t now inner
    ∧ ∃ ov : Option Value,
        (ConfigManager.get_value p ⟨pe, d, sd, fs, r, co⟩ key t now inner).1 = .ok ov := by
  have hrv : remoteValues r = remoteValues
      (RemoteOutcome.success (some (.obj [("values", .obj [])]))) := by
    rcases hfail with h | h <;> subst h <;> rfl
  exact ⟨get_value_remote_congr p pe d sd fs co _ _ hrv key t now inner,
    cm_get_value_ok p _ key t now inner⟩

/-- Witness for C6: an HTTP 500 remote yields the same outcome as an empty
remote and the call still succeeds with the file-sourced value. -/
theorem remote_failure_nonfatal_witness :
    ConfigManager.get_value CMParams.new
        ⟨[("SMOOAI_ENV_CONFIG_DIR", "/cfg")], fun _ => true,
          .error (SmooaiConfigError.new "unused"),
          fun p => if p = "/cfg/default.json"
            then FileResult.content (.ok (.obj [("API_URL", Value.str "http://fallback")]))
            else FileResult.missing,
          RemoteOutcome.httpError, ⟨fun _ => none, fun _ => none⟩⟩
        "API_URL" Tier.public 0 ManagerInner.new
      = ConfigManager.get_value CMParams.new
        ⟨[("SMOOAI_ENV_CONFIG_DIR", "/cfg")], fun _ => true,
          .error (SmooaiConfigError.new "unused"),
          fun p => if p = "/cfg/default.json"
            then FileResult.content (.ok (.obj [("API_URL", Value.str "http://fallback")]))
            else FileResult.missing,
          RemoteOutcome.success (some (.obj [("values", .obj [])])),
          ⟨fun _ => none, fun _ => none⟩⟩
        "API_URL" Tier.public 0 ManagerInner.new :=
  (remote_failure_nonfatal CMParams.new [("SMOOAI_ENV_CONFIG_DIR", "/cfg")]
    (fun _ => true) (.error (SmooaiConfigError.new "unused"))
    (fun p => if p = "/cfg/default.json"
      then FileResult.content (.ok (.obj [("API_URL", Value.str "http://fallback")]))
      else FileResult.missing)
    ⟨fun _ => none, fun _ => none⟩ RemoteOutcome.httpError (Or.inl rfl)
    "API_URL" Tier.public 0 ManagerInner.new).1

/-- Claim C5: `get_value` cache behavior on tier `t`: an unexpired cached
entry is returned as-is with the state untouched (no merged-config
consultation); an expired entry is evicted and the call proceeds exactly as
on the evicted state; on a miss, initialization runs if needed and a value
found in the merged config is returned after populating the tier cache
with expiry `now + cache_ttl`; a key absent from the merged config returns
not-found and creates no cache entry; the default TTL is 86400 seconds
(24 hours). -/
theorem get_value_cache_behavior (p : CMParams) (w : World) (key : String)
    (t : Tier) (now : Nat) (inner : ManagerInner)
    (hnd : nodupKeysB (inner.cache t) = true) :
    (∀ e : CacheEntry, lookupKV (inner.cache t) key = some e → now < e.expires_at →
      ConfigManager.get_value p w key t now inner = (.ok (some e.value), inner))
    ∧ (∀ e : CacheEntry, lookupKV (inner.cache t) key = some e → ¬ now < e.expires_at →
      ConfigManager.get_value p w key t now inner
        = ConfigManager.get_value p w key t now
            (inner.setCache t (removeKV (inner.cache t) key)))
    ∧ (lookupKV (inner.cache t) key = none →
        ∀ v : Value,
        lookupKV (ConfigManager.initialize_inner p w inner).config key = some v →
        ConfigManager.get_value p w key t now inner
          = (.ok (some v),
              (ConfigManager.initialize_inner p w inner).setCache t
                (setKV ((ConfigManager.initialize_inner p w inner).cache t) key
                  ⟨v, now + p.cache_ttl⟩)))
    ∧ (lookupKV (inner.cache t) key = none →
        lookupKV (ConfigManager.initialize_inner p w inner).config key = none →
        ConfigManager.get_value p w key t now inner
          = (.ok none, ConfigManager.initialize_inner p w inner))
    ∧ CMParams.new.cache_ttl = 86400 := by
  refine ⟨?_, ?_, ?_, ?_, rfl⟩
  · intro e he hlt
    unfold ConfigManager.get_value
    simp only [he]
    rw [if_pos hlt]
  · intro e he hge
    unfold ConfigManager.get_value
    simp only [he]
    rw [if_neg hge]
    rw [cache_setCache_self]
    rw [lookupKV_removeKV_self (inner.cache t) key hnd]
  · intro hmiss v hv
    unfold ConfigManager.get_value ConfigManager.get_value_miss
    simp only [hmiss, hv]
  · intro hmiss hv
    unfold ConfigManager.get_value ConfigManager.get_value_miss
    simp only [hmiss, hv]

/-- Witness for C5 at a concrete state: an unexpired cached entry is
served back unchanged. -/
theorem get_value_cache_behavior_witness :
    ConfigManager.get_value CMParams.new
        ⟨[], fun _ => false, .error (SmooaiConfigError.new "nowhere"),
          fun _ => FileResult.missing, RemoteOutcome.transportError,
          ⟨fun _ => none, fun _ => none⟩⟩
        "K" Tier.public 50
        ⟨true, [("K", Value.str "cfgv")], [("K", ⟨Value.str "cached", 100⟩)], [], []⟩
      = (.ok (some (Value.str "cached")),
          ⟨true, [("K", Value.str "cfgv")], [("K", ⟨Value.str "cached", 100⟩)], [], []⟩) :=
  (get_value_cache_behavior CMParams.new
      ⟨[], fun _ => false, .error (SmooaiConfigError.new "nowhere"),
        fun _ => FileResult.missing, RemoteOutcome.transportError,
        ⟨fun _ => none, fun _ => none⟩⟩
      "K" Tier.public 50
      ⟨true, [("K", Value.str "cfgv")], [("K", ⟨Value.str "cached", 100⟩)], [], []⟩
      rfl).1 ⟨Value.str "cached", 100⟩ rfl (by decide)

/-- Claim C8: A `get_value` on one tier modifies only that tier's cache —
the other two tier caches are unchanged in every state; in `Ready` states
(`initialized = true`) the merged config and the flag are also unchanged;
and for any two tiers whose caches do not hold the key, the same key
resolves to the identical result, because both tiers read the same merged
config. -/
theorem tier_isolation (p : CMParams) (w : World) (key : String) (t : Tier)
    (now : Nat) (inner : ManagerInner) :
    (∀ t' : Tier, t' ≠ t →
      ((ConfigManager.get_value p w key t now inner).2).cache t' = inner.cache t')
    ∧ (inner.initialized = true →
        ((ConfigManager.get_value p w key t now inner).2).config = inner.config
        ∧ ((ConfigManager.get_value p w key t now inner).2).initialized = true)
    ∧ (∀ t₁ t₂ : Tier,
        lookupKV (inner.cache t₁) key = none → lookupKV (inner.cache t₂) key = none →
        (ConfigManager.get_value p w key t₁ now inner).1
          = (ConfigManager.get_value p w key t₂ now inner).1) := by
  refine ⟨?_, ?_, ?_⟩
  · intro t' hne
    unfold ConfigManager.get_value ConfigManager.get_value_miss
    cases hlk : lookupKV (inner.cache t) key with
    | some entry =>
      by_cases hlt : now < entry.expires_at
      · simp only [hlk]
        rw [if_pos hlt]
      · simp only [hlk]
        rw [if_neg hlt]
        cases hc : lookupKV (ConfigManager.initialize_inner p w
            (inner.setCache t (removeKV (inner.cache t) key))).config key with
        | some val =>
          simp only [hc]
          rw [cache_setCache_ne _ _ _ _ hne, initialize_inner_cache,
            cache_setCache_ne _ _ _ _ hne]
        | none =>
          simp only [hc]
          rw [initialize_inner_cache, cache_setCache_ne _ _ _ _ hne]
    | none =>
      simp only [hlk]
      cases hc : lookupKV (ConfigManager.initialize_inner p w inner).config key with
      | some val =>
        simp only [hc]
        rw [cache_setCache_ne _ _ _ _ hne, initialize_inner_cache]
      | none =>
        simp only [hc]
        rw [initialize_inner_cache]
  · intro hinit
    unfold ConfigManager.get_value ConfigManager.get_value_miss
    have hevict : (inner.setCache t (removeKV (inner.cache t) key)).initialized = true := by
      rw [initialized_setCache]; exact hinit
    cases hlk : lookupKV (inner.cache t) key with
    | some entry =>
      by_cases hlt : now < entry.expires_at
      · simp only [hlk]
        rw [if_pos hlt]
        exact ⟨rfl, hinit⟩
      · simp only [hlk]
        rw [if_neg hlt]
        rw [initialize_inner_ready p w _ hevict]
        cases hc : lookupKV (inner.setCache t (removeKV (inner.cache t) key)).config key with
        | some val =>
          simp only [hc]
          rw [config_setCache, config_setCache, initialized_setCache, initialized_setCache]
          exact ⟨rfl, hinit⟩
        | none =>
          simp only [hc]
          rw [config_setCache, initialized_setCache]
          exact ⟨rfl, hinit⟩
    | none =>
      simp only [hlk]
      rw [initialize_inner_ready p w inner hinit]
      cases hc : lookupKV inner.config key with
      | some val =>
        simp only [hc]
        rw [config_setCache, initialized_setCache]
        exact ⟨rfl, hinit⟩
      | none =>
        simp only [hc]
        exact ⟨by trivial, hinit⟩
  · intro t₁ t₂ h1 h2
    unfold ConfigManager.get_value ConfigManager.get_value_miss
    simp only [h1, h2]
    cases hc : lookupKV (ConfigManager.initialize_inner p w inner).config key with
    | some val => simp only [hc]
    | none => simp only [hc]

/-- Witness for C8: a secret-tier get leaves the public cache untouched,
and public and secret resolve the key identically from a fresh state. -/
theorem tier_isolation_witness :
    ((ConfigManager.get_value CMParams.new
        ⟨[("SMOOAI_ENV_CONFIG_DIR", "/cfg")], fun _ => true,
          .error (SmooaiConfigError.new "unused"),
          fun p => if p = "/cfg/default.json"
            then FileResult.content (.ok (.obj [("DB_PASS", Value.str "secret123")]))
            else FileResult.missing,
          RemoteOutcome.transportError, ⟨fun _ => none, fun _ => none⟩⟩
        "DB_PASS" Tier.secret 0 ManagerInner.new).2).cache Tier.public
      = ManagerInner.new.cache Tier.public
    ∧ (ConfigManager.get_value CMParams.new
        ⟨[("SMOOAI_ENV_CONFIG_DIR", "/cfg")], fun _ => true,
          .error (SmooaiConfigError.new "unused"),
          fun p => if p = "/cfg/default.json"
            then FileResult.content (.ok (.obj [("DB_PASS", Value.str "secret123")]))
            else FileResult.missing,
          RemoteOutcome.transportError, ⟨fun _ => none, fun _ => none⟩⟩
        "DB_PASS" Tier.public 0 ManagerInner.new).1
      = (ConfigManager.get_value CMParams.new
        ⟨[("SMOOAI_ENV_CONFIG_DIR", "/cfg")], fun _ => true,
          .error (SmooaiConfigError.new "unused"),
          fun p => if p = "/cfg/default.json"
            then FileResult.content (.ok (.obj [("DB_PASS", Value.str "secret123")]))
            else FileResult.missing,
          RemoteOutcome.transportError, ⟨fun _ => none, fun _ => none⟩⟩
        "DB_PASS" Tier.secret 0 ManagerInner.new).1 :=
  ⟨(tier_isolation CMParams.new
      ⟨[("SMOOAI_ENV_CONFIG_DIR", "/cfg")], fun _ => true,
        .error (SmooaiConfigError.new "unused"),
        fun p => if p = "/cfg/default.json"
          then FileResult.content (.ok (.obj [("DB_PASS", Value.str "secret123")]))
          else FileResult.missing,
        RemoteOutcome.transportError, ⟨fun _ => none, fun _ => none⟩⟩
      "DB_PASS" Tier.secret 0 ManagerInner.new).1 Tier.public (by decide),
   (tier_isolation CMParams.new
      ⟨[("SMOOAI_ENV_CONFIG_DIR", "/cfg")], fun _ => true,
        .error (SmooaiConfigError.new "unused"),
        fun p => if p = "/cfg/default.json"
          then FileResult.content (.ok (.obj [("DB_PASS", Value.str "secret123")]))
          else FileResult.missing,
        RemoteOutcome.transportError, ⟨fun _ => none, fun _ => none⟩⟩
      "DB_PASS" Tier.public 0 ManagerInner.new).2.2 Tier.public Tier.secret rfl rfl⟩

/-- Claim C9: In the local-only manager, a key present in both the
file-loaded and env-loaded configurations resolves to the file value —
file is strictly higher precedence than env — and the local pipeline never
consults a remote source: its outcome is invariant under every change of
the world's remote component. -/
theorem local_file_over_env (p : LocalParams) (pe : EnvMap) (d : String → Bool)
    (sd : Except SmooaiConfigError String) (fs : FS) (co : EnvCoercers)
    (r : RemoteOutcome) (key : String) (t : Tier) (now : Nat) (inner : LocalInner)
    (hmiss : lookupKV (inner.cache t) key = none)
    (hinit : inner.initialized = false)
    (fmap : List (String × Value)) (fv : Value)
    (hfile : find_and_process_file_config_with_env d sd fs (p.env_override.getD pe)
      = .ok fmap)
    (hfv : lookupKV fmap key = some fv)
    (ev : Value)
    (hev : lookupKV (find_and_process_env_config_with_env (p.schema_keys.getD [])
      p.env_pfx p.schema_types co (p.env_override.getD pe)) key = some ev) :
    (LocalConfigManager.get_value p ⟨pe, d, sd, fs, r, co⟩ key t now inner).1
      = .ok (some fv)
    ∧ (∀ r' : RemoteOutcome,
        LocalConfigManager.get_value p ⟨pe, d, sd, fs, r', co⟩ key t now inner
          = LocalConfigManager.get_value p ⟨pe, d, sd, fs, r, co⟩ key t now inner) := by
  constructor
  · unfold LocalConfigManager.get_value LocalConfigManager.get_value_miss
      LocalConfigManager.initialize_inner
    simp [hmiss, hinit, hfile, hfv]
  · intro r'
    rfl

/-- Witness for C9: `API_URL` set in both `default.json` and the
environment resolves to the file value in the local manager. -/
theorem local_file_over_env_witness :
    (LocalConfigManager.get_value
        { LocalParams.new with schema_keys := some ["API_URL"] }
        ⟨[("SMOOAI_ENV_CONFIG_DIR", "/cfg"), ("API_URL", "http://env-api")],
          fun _ => true, .error (SmooaiConfigError.new "unused"),
          fun q => if q = "/cfg/default.json"
            then FileResult.content (.ok (.obj [("API_URL", Value.str "http://file-api")]))
            else FileResult.missing,
          RemoteOutcome.transportError, ⟨fun _ => none, fun _ => none⟩⟩
        "API_URL" Tier.public 0 LocalInner.new).1
      = .ok (some (Value.str "http://file-api")) :=
  (local_file_over_env { LocalParams.new with schema_keys := some ["API_URL"] }
      [("SMOOAI_ENV_CONFIG_DIR", "/cfg"), ("API_URL", "http://env-api")]
      (fun _ => true) (.error (SmooaiConfigError.new "unused"))
      (fun q => if q = "/cfg/default.json"
        then FileResult.content (.ok (.obj [("API_URL", Value.str "http://file-api")]))
        else FileResult.missing)
      ⟨fun _ => none, fun _ => none⟩ RemoteOutcome.transportError
      "API_URL" Tier.public 0 LocalInner.new rfl rfl
      [("API_URL", Value.str "http://file-api"), ("ENV", Value.str "development"),
        ("IS_LOCAL", Value.bool false), ("REGION", Value.str "unknown"),
        ("CLOUD_PROVIDER", Value.str "unknown")]
      (Value.str "http://file-api") (by rfl) rfl
      (Value.str "http://env-api") (by rfl)).1

/-- Counterexample to C1 as stated: with `SMOOAI_ENV_CONFIG_DIR` pointing
at a directory with no `default.json`, the file loader fails
(`MissingRequiredFile`), yet `ConfigManager::get_value` absorbs the error
(`unwrap_or_default` in `initialize_inner`) and returns `.ok` — the
file-level failure never reaches the caller of `get`. -/
theorem file_error_not_surfaced_counterexample :
    (find_and_process_file_config_with_env (fun _ => true)
        (.error (SmooaiConfigError.new "unused"))
        (fun _ => FileResult.missing)
        [("SMOOAI_ENV_CONFIG_DIR", "/cfg")])
      = .error ⟨"[Smooai Config] Required default.json not found in /cfg"⟩
    ∧ (ConfigManager.get_value CMParams.new
        ⟨[("SMOOAI_ENV_CONFIG_DIR", "/cfg")], fun _ => true,
          .error (SmooaiConfigError.new "unused"), fun _ => FileResult.missing,
          RemoteOutcome.transportError, ⟨fun _ => none, fun _ => none⟩⟩
        "ANY_KEY" Tier.public 0 ManagerInner.new).1
      = .ok none :=
  ⟨by rfl, by rfl⟩

/-- Claim C1 (amended): A file-loading or parse-level failure aborts the
initialization pass and is returned to the caller of `get` in the
**LocalConfigManager**, whose `initialize_inner` propagates the loader
error (`?`) and leaves the manager uninitialized; the unified
`ConfigManager` instead absorbs file-source failures
(`unwrap_or_default`), degrading to an empty file contribution, so its
`get` always returns `.ok`. -/
theorem file_error_surfacing_amended (p : LocalParams) (pe : EnvMap)
    (d : String → Bool) (sd : Except SmooaiConfigError String) (fs : FS)
    (co : EnvCoercers) (r : RemoteOutcome) (key : String) (t : Tier) (now : Nat)
    (inner : LocalInner) (e : SmooaiConfigError)
    (hmiss : lookupKV (inner.cache t) key = none)
    (hinit : inner.initialized = false)
    (herr : find_and_process_file_config_with_env d sd fs (p.env_override.getD pe)
      = .error e) :
    LocalConfigManager.get_value p ⟨pe, d, sd, fs, r, co⟩ key t now inner
      = (.error e, inner)
    ∧ ∀ (pcm : CMParams) (cminner : ManagerInner) (key' : String) (t' : Tier)
        (now' : Nat),
        ∃ ov : Option Value,
          (ConfigManager.get_value pcm ⟨pe, d, sd, fs, r, co⟩ key' t' now' cminner).1
            = .ok ov := by
  constructor
  · unfold LocalConfigManager.get_value LocalConfigManager.get_value_miss
      LocalConfigManager.initialize_inner
    simp [hmiss, hinit, herr]
  · intro pcm cminner key' t' now'
    exact cm_get_value_ok pcm _ key' t' now' cminner

/-- Witness for the amended C1: a directory without `default.json` makes
the local manager's `get` return the loader error and stay uninitialized,
while the unified manager's `get` succeeds. -/
theorem file_error_surfacing_amended_witness :
    LocalConfigManager.get_value LocalParams.new
        ⟨[("SMOOAI_ENV_CONFIG_DIR", "/cfg")], fun _ => true,
          .error (SmooaiConfigError.new "unused"), fun _ => FileResult.missing,
          RemoteOutcome.transportError, ⟨fun _ => none, fun _ => none⟩⟩
        "API_URL" Tier.public 0 LocalInner.new
      = (.error ⟨"[Smooai Config] Required default.json not found in /cfg"⟩,
          LocalInner.new) :=
  (file_error_surfacing_amended LocalParams.new
      [("SMOOAI_ENV_CONFIG_DIR", "/cfg")] (fun _ => true)
      (.error (SmooaiConfigError.new "unused")) (fun _ => FileResult.missing)
      ⟨fun _ => none, fun _ => none⟩ RemoteOutcome.transportError
      "API_URL" Tier.public 0 LocalInner.new
      ⟨"[Smooai Config] Required default.json not found in /cfg"⟩
      rfl rfl (by rfl)).1
